import Mathlib

/-!
# Verification of the reward-system ledger (user router) against its specification

Shallow embedding of `src/packages/api/src/router/user.ts` (the ledger
operations `create`, `sendCoinsByUserId`, `sendCoinsByGithubId`,
`payCoinsByUserId` and their shared catch-block error classification) and of
the thumbnail resolver in `src/packages/auth/src/auth-options.ts`.

The persistent store is modelled as a list of `User` rows.  The Prisma
`findUnique` on a unique column becomes `List.find?` on a predicate over that
column; `update` on a unique `where` becomes "rewrite the first matching row";
`upsert` becomes "rewrite the first matching row, or append the `create` row
when none matches"; `create` appends a row.  Machine numbers are `Int`
(the `coins` column is an integer); JavaScript `parseInt` is modelled for
decimal strings, with `none` standing for `NaN`.
-/

/-- Row of the `User` table (relevant columns, from the Prisma data model as
used by the router: identity columns, `thumbnail`, and the `coins` balance). -/
structure User where
  name : String
  email : Option String
  discordId : Option String
  discordUserName : Option String
  discordDiscriminator : Option String
  githubId : Option String
  githubUserName : Option String
  thumbnail : String
  coins : Int
deriving Repr, DecidableEq

/-- The database state: the list of `User` rows. -/
abbrev DB := List User

/-- Rewrite the first row satisfying `p` using `f`; leave the rest unchanged.
This is the effect of a Prisma `update` whose `where` clause is a unique
column match. -/
def updateFirst (p : User → Bool) (f : User → User) : DB → DB
  | [] => []
  | u :: us => if p u then f u :: us else u :: updateFirst p f us

/-- Prisma `upsert`: if a row matches `p`, rewrite it with `upd` (returning the
updated row); otherwise append the `created` row (returning it). -/
def upsertBy (p : User → Bool) (upd : User → User) (created : User) (db : DB) :
    DB × User :=
  match db.find? p with
  | some u => (updateFirst p upd db, upd u)
  | none => (db ++ [created], created)

/-- JavaScript `parseInt` on a decimal string: an optional sign followed by a
longest digit prefix; `none` models `NaN` (no leading digit).  Hexadecimal
prefixes and whitespace trimming are outside the inputs this API receives and
are not modelled. -/
def parseIntJS (s : String) : Option Int :=
  let digitsVal : List Char → Option Int := fun cs =>
    let ds := cs.takeWhile Char.isDigit
    if ds.isEmpty then none
    else some (ds.foldl (fun a c => a * 10 + ((c.toNat : Int) - 48)) 0)
  match s.data with
  | '-' :: rest => (digitsVal rest).map (fun n => -n)
  | '+' :: rest => digitsVal rest
  | cs => digitsVal cs

/-- JavaScript number rendering for the template literal: an `Option Int`
models a JS number that may be `NaN`. -/
def jsNumToString : Option Int → String
  | some n => toString n
  | none => "NaN"

/-- JavaScript `%` on integers truncates toward zero, which is `Int.tmod`;
`NaN` propagates. -/
def jsMod (a : Option Int) (b : Int) : Option Int :=
  a.map (fun n => n.tmod b)

/-- Helper for `strStartsWith`: the first list read as characters begins the
second. -/
def listIsPrefix : List Char → List Char → Bool
  | [], _ => true
  | _ :: _, [] => false
  | a :: as, b :: bs => a == b && listIsPrefix as bs

/-- JavaScript `String.prototype.startsWith`, modelled structurally on the
character list. -/
def strStartsWith (s p : String) : Bool := listIsPrefix p.data s.data

/-- Thumbnail resolver from `src/packages/auth/src/auth-options.ts`
(`profile` callback, lines 42–49): with no avatar hash, a default avatar URL
indexed by `parseInt(discriminator) % 5`; with an avatar hash, a per-account
URL whose extension is `gif` when the hash starts with `a_`, else `png`. -/
def profileImageUrl (avatar : Option String) (id discriminator : String) :
    String :=
  match avatar with
  | none =>
    let defaultAvatarNumber := jsMod (parseIntJS discriminator) 5
    "https://cdn.discordapp.com/embed/avatars/" ++
      jsNumToString defaultAvatarNumber ++ ".png"
  | some a =>
    let format := if strStartsWith a "a_" then "gif" else "png"
    "https://cdn.discordapp.com/avatars/" ++ id ++ "/" ++ a ++ "." ++ format

/-- Discord-shaped user input (`{id, username, avatar, discriminator}`) of
`sendCoinsByUserId` and `payCoinsByUserId`. -/
structure DiscordUserInput where
  id : String
  username : String
  avatar : Option String
  discriminator : String
deriving Repr, DecidableEq

/-- GitHub-shaped user input (`{id, login, name, email, avatarUrl}`) of
`sendCoinsByGithubId`. -/
structure GithubUserInput where
  id : String
  login : String
  name : String
  email : String
  avatarUrl : String
deriving Repr, DecidableEq

/-- Modelled from the spec: `setThumbnailUrl` lives in
`src/packages/api/src/utils/functions.ts`, which is not among the provided
sources; §4.1 of the spec gives its rule, identical to the resolver in
`auth-options.ts`: default avatar by `hash(discriminator) mod 5` when the
avatar hash is absent, else a per-account URL with `gif`/`png` extension. -/
def setThumbnailUrl (u : DiscordUserInput) : String :=
  profileImageUrl u.avatar u.id u.discriminator

/-- tRPC error codes used by the router. -/
inductive TRPCCode where
  | conflict
  | badRequest
  | unauthorized
  | internalServerError
deriving Repr, DecidableEq

/-- A thrown `TRPCError`: a code together with a message. -/
structure TRPCErrorVal where
  code : TRPCCode
  message : String
deriving Repr, DecidableEq

/-- i18n message keys used by the router (`i18n.t` modelled as the key). -/
def userAlreadyExistsMsg : String := "package.api.item.buyItem.error.userAlreadyExists"

/-- Message key for invalid input (Zod branch of the catch blocks). -/
def invalidItemIdMsg : String := "package.api.item.buyItem.error.invalidItemId"

/-- Message key for unauthorized access. -/
def unauthorizedMsg : String := "common.message.error.unauthorized"

/-- Message key for insufficient balance in `payCoinsByUserId`. -/
def insufficientBalanceMsg : String := "package.api.user.payCoinsByUserId.error.insufficientBalance"

/-- The `InsufficientBalance` error as the router actually throws it:
`TRPCErrorCode.INTERNAL_SERVER_ERROR` with the insufficient-balance message. -/
def insufficientBalanceError : TRPCErrorVal :=
  ⟨.internalServerError, insufficientBalanceMsg⟩

/-- Prisma error code for a unique-constraint violation
(`PrismaErrorCode.UniqueConstraintViolation`). -/
def uniqueConstraintViolationCode : String := "P2002"

/-- An error caught by the identical, copy-pasted catch blocks of the router:
a known Prisma request error with its code, a Zod validation error, a thrown
`TRPCError`, or anything else (e.g. a Prisma validation error or a plain
`Error`). -/
inductive Thrown where
  | prismaKnown (code : String)
  | zod
  | trpcError (e : TRPCErrorVal)
  | unknownError
deriving Repr, DecidableEq

/-- The shared catch block (`user.ts` lines 60–97, 143–179, 224–260,
374–410): re-classify a caught error into the `TRPCError` it re-throws, or
`none` when no branch matches — in which case the mutation body falls off the
end of the catch and returns `undefined`. -/
def classifyCaught : Thrown → Option TRPCErrorVal
  | .prismaKnown code =>
    if code = uniqueConstraintViolationCode then
      some ⟨.conflict, userAlreadyExistsMsg⟩
    else
      none
  | .zod => some ⟨.badRequest, invalidItemIdMsg⟩
  | .trpcError e =>
    if e.code = .unauthorized then
      some ⟨.unauthorized, unauthorizedMsg⟩
    else
      some ⟨.internalServerError, e.message⟩
  | .unknownError => none

/-- Observable outcome of a mutation endpoint: a `{status: SUCCESS, data}`
envelope, a raised (classified) error, or a silent `undefined` return from an
unmatched catch branch. -/
inductive Outcome (α : Type) where
  | success (v : α)
  | error (e : TRPCErrorVal)
  | silent
deriving Repr, DecidableEq

/-- Run the shared catch block on a caught error: re-throw the classified
error, or return `undefined` (silently) when no branch matches. -/
def runCatch (α : Type) (t : Thrown) : Outcome α :=
  match classifyCaught t with
  | some e => .error e
  | none => .silent

/-- Row that `sendCoinsByUserId` (and, with `coins` fixed, `payCoinsByUserId`)
passes to the `create` arm of its upsert: a Discord identity with the resolved
thumbnail and a `coins` initial balance. -/
def newDiscordRow (iu : DiscordUserInput) (coins : Int) : User :=
  { name := iu.username, email := none, discordId := some iu.id,
    discordUserName := some iu.username,
    discordDiscriminator := some iu.discriminator,
    githubId := none, githubUserName := none,
    thumbnail := setThumbnailUrl iu, coins := coins }

/-- `sendCoinsByUserId` (`user.ts` lines 99–180): upsert on `discordId`,
incrementing `coins` by the input amount, or creating the user with that
amount; the `!user` guard is unreachable (`upsert` always yields a row); the
success envelope carries the upserted user. No amount validation exists. -/
def sendCoinsByUserId (iu : DiscordUserInput) (coins : Int) (db : DB) :
    DB × Outcome User :=
  let r := upsertBy (fun u => u.discordId == some iu.id)
    (fun u => { u with coins := u.coins + coins })
    (newDiscordRow iu coins) db
  (r.1, .success r.2)

/-- `sendCoinsByGithubId` (`user.ts` lines 182–261): parse `coins` with
`parseInt`, then upsert on `githubId`; a `NaN` amount makes the persistence
call reject with a (non-`KnownRequestError`) validation error, which the catch
block does not match. The created row takes `thumbnail` from `avatarUrl`
verbatim. No amount validation exists. `newGithubRow` is the row passed to the
`create` arm of the upsert. -/
def newGithubRow (gu : GithubUserInput) (coins : Int) : User :=
  { name := gu.name, email := some gu.email, discordId := none,
    discordUserName := none, discordDiscriminator := none,
    githubId := some gu.id, githubUserName := some gu.login,
    thumbnail := gu.avatarUrl, coins := coins }

/-- `sendCoinsByGithubId` continued: the endpoint itself. -/
def sendCoinsByGithubId (gu : GithubUserInput) (coinsStr : String) (db : DB) :
    DB × Outcome User :=
  match parseIntJS coinsStr with
  | none => (db, runCatch User .unknownError)
  | some n =>
    let r := upsertBy (fun u => u.githubId == some gu.id)
      (fun u => { u with coins := u.coins + n })
      (newGithubRow gu n) db
    (r.1, .success r.2)

/-- The sender-decrement write of `payCoinsByUserId` (`user.ts` lines
324–330): `update` whose `where` clause filters only on `discordId`, applying
`coins: { decrement: amount }` unconditionally to the matched row. -/
def decrementSender (senderId : String) (amount : Int) (db : DB) : DB :=
  updateFirst (fun u => u.discordId == some senderId)
    (fun u => { u with coins := u.coins - amount }) db

/-- `payCoinsByUserId` (`user.ts` lines 263–411): read the sender balance by
`discordId`; if absent, create the sender with `coins = 0` and throw the
insufficient-balance error; if `coins <= 0 || coins < amount`, throw the
insufficient-balance error; otherwise decrement the sender and upsert the
receiver (increment, or create with `coins = amount`), returning the updated
receiver in the success envelope.  The `!newSenderBalance` and
`!updatedReceiver` guards are unreachable in the sequential model.  The row
passed to the `create` arm of the receiver upsert is
`newDiscordRow receiver coins` (initial balance `coins`). -/
def payCoinsByUserId (receiver sender : DiscordUserInput) (coins : Int)
    (db : DB) : DB × Outcome User :=
  match db.find? (fun u => u.discordId == some sender.id) with
  | none =>
    (db ++ [newDiscordRow sender 0],
      runCatch User (.trpcError insufficientBalanceError))
  | some senderRow =>
    if senderRow.coins ≤ 0 ∨ senderRow.coins < coins then
      (db, runCatch User (.trpcError insufficientBalanceError))
    else
      let db1 := decrementSender sender.id coins db
      let r := upsertBy (fun u => u.discordId == some receiver.id)
        (fun u => { u with coins := u.coins + coins })
        (newDiscordRow receiver coins) db1
      (r.1, .success r.2)

/-- Input of the `create` endpoint (`user.ts` lines 34–47): optional identity
fields; `coins` is optional with a persistence-side default of 0. -/
structure CreateInput where
  name : String
  email : Option String
  discordId : Option String
  discordUserName : Option String
  discordDiscriminator : Option String
  thumbnail : String
  coins : Option Int
  githubUsername : Option String
  githubUserId : Option String
deriving Repr, DecidableEq

/-- Row built by `prisma.user.create({ data: {...input} })` in the `create`
endpoint; `coins` defaults to 0 when absent. -/
def rowOfCreateInput (i : CreateInput) : User :=
  { name := i.name, email := i.email, discordId := i.discordId,
    discordUserName := i.discordUserName,
    discordDiscriminator := i.discordDiscriminator,
    githubId := i.githubUserId, githubUserName := i.githubUsername,
    thumbnail := i.thumbnail, coins := i.coins.getD 0 }

/-- Unique-constraint clash on the partially-unique identity columns
(`email`, `discordId`, `githubId`): null values do not collide. -/
def uniqueClash (u : User) (i : CreateInput) : Bool :=
  (i.email.isSome && u.email == i.email) ||
  (i.discordId.isSome && u.discordId == i.discordId) ||
  (i.githubUserId.isSome && u.githubId == i.githubUserId)

/-- `create` (`user.ts` lines 34–97): insert the row; a unique-constraint
violation from the store is caught and classified by the shared catch block. -/
def createUser (i : CreateInput) (db : DB) : DB × Outcome User :=
  if db.any (fun u => uniqueClash u i) then
    (db, runCatch User (.prismaKnown uniqueConstraintViolationCode))
  else
    (db ++ [rowOfCreateInput i], .success (rowOfCreateInput i))

/-- All balances in the database are non-negative. -/
def allNonneg (db : DB) : Prop := ∀ u ∈ db, 0 ≤ u.coins

instance (db : DB) : Decidable (allNonneg db) :=
  inferInstanceAs (Decidable (∀ u ∈ db, 0 ≤ u.coins))

/-- Concrete Discord input used in the concrete evaluations below. -/
def exAlice : DiscordUserInput :=
  { id := "s1", username := "alice", avatar := none, discriminator := "1" }

/-- Concrete Discord input for a receiver. -/
def exBob : DiscordUserInput :=
  { id := "r1", username := "bob", avatar := none, discriminator := "2" }

/-- Concrete GitHub input. -/
def exOcto : GithubUserInput :=
  { id := "g1", login := "octo", name := "Octo Cat",
    email := "octo@example.com", avatarUrl := "https://avatars.example/u/g1" }

/-- Concrete database with one sender holding 100 coins. -/
def exDb100 : DB := [newDiscordRow exAlice 100]

/-- Concrete database with a sender (100 coins) and a receiver (5 coins). -/
def exDb100and5 : DB := [newDiscordRow exAlice 100, newDiscordRow exBob 5]

/-- Concrete database with one user holding 0 coins. -/
def exDb0 : DB := [newDiscordRow exAlice 0]

/-!
## Frame lemmas about `updateFirst`, `find?` and `upsertBy`
-/

/-- Every row of `updateFirst p f db` is either a row of `db` or the image
under `f` of the first row matching `p`. -/
theorem mem_updateFirst (p : User → Bool) (f : User → User) :
    ∀ (db : DB) (x : User), x ∈ updateFirst p f db →
      x ∈ db ∨ ∃ u, db.find? p = some u ∧ x = f u := by
  intro db
  induction db with
  | nil => intro x hx; cases hx
  | cons u us ih =>
    intro x hx
    by_cases h : p u
    · rw [updateFirst, if_pos h] at hx
      rcases List.mem_cons.mp hx with h1 | h1
      · exact Or.inr ⟨u, List.find?_cons_of_pos _ h, h1⟩
      · exact Or.inl (List.mem_cons_of_mem _ h1)
    · rw [updateFirst, if_neg h] at hx
      rcases List.mem_cons.mp hx with h1 | h1
      · exact Or.inl (h1 ▸ List.mem_cons_self _ _)
      · rcases ih x h1 with h2 | ⟨v, hv, hx2⟩
        · exact Or.inl (List.mem_cons_of_mem _ h2)
        · exact Or.inr ⟨v, by rw [List.find?_cons_of_neg _ h, hv], hx2⟩

/-- Non-negativity of all balances is preserved by `updateFirst` as long as
the rewrite keeps the matched row non-negative. -/
theorem allNonneg_updateFirst (p : User → Bool) (f : User → User) (db : DB)
    (h : allNonneg db)
    (hf : ∀ u, db.find? p = some u → 0 ≤ (f u).coins) :
    allNonneg (updateFirst p f db) := by
  intro x hx
  rcases mem_updateFirst p f db x hx with h1 | ⟨u, hu, rfl⟩
  · exact h x h1
  · exact hf u hu

/-- Non-negativity of all balances after appending one row. -/
theorem allNonneg_append_singleton (db : DB) (c : User) (h : allNonneg db)
    (hc : 0 ≤ c.coins) : allNonneg (db ++ [c]) := by
  intro x hx
  rcases List.mem_append.mp hx with h1 | h1
  · exact h x h1
  · rw [List.mem_singleton.mp h1]; exact hc

/-- Looking up the updated key after `updateFirst` at the same key returns the
rewritten row, provided the rewrite does not change whether a row matches. -/
theorem find?_updateFirst_self (p : User → Bool) (f : User → User)
    (hpf : ∀ u, p (f u) = p u) :
    ∀ db : DB, (updateFirst p f db).find? p = (db.find? p).map f := by
  intro db
  induction db with
  | nil => rfl
  | cons u us ih =>
    by_cases h : p u
    · have hfu : p (f u) = true := by rw [hpf u]; exact h
      rw [updateFirst, if_pos h, List.find?_cons_of_pos _ hfu, List.find?_cons_of_pos _ h]
      rfl
    · rw [updateFirst, if_neg h, List.find?_cons_of_neg _ h, List.find?_cons_of_neg _ h, ih]

/-- Looking up a key disjoint from the updated one is unaffected by
`updateFirst`. -/
theorem find?_updateFirst_of_disjoint (p q : User → Bool) (f : User → User)
    (hpf : ∀ u, p (f u) = p u) (hdisj : ∀ u, q u = true → p u = false) :
    ∀ db : DB, (updateFirst q f db).find? p = db.find? p := by
  intro db
  induction db with
  | nil => rfl
  | cons u us ih =>
    by_cases h : q u
    · have hpu : p u = false := hdisj u h
      have hpfu : p (f u) = false := (hpf u).trans hpu
      rw [updateFirst, if_pos h, List.find?_cons_of_neg _ (by simp [hpfu]),
        List.find?_cons_of_neg _ (by simp [hpu])]
    · by_cases hp : p u
      · rw [updateFirst, if_neg h, List.find?_cons_of_pos _ hp, List.find?_cons_of_pos _ hp]
      · rw [updateFirst, if_neg h, List.find?_cons_of_neg _ hp, List.find?_cons_of_neg _ hp, ih]

/-- Rewriting the first match twice composes the rewrites. -/
theorem updateFirst_updateFirst (p : User → Bool) (f g : User → User)
    (hpg : ∀ u, p (g u) = p u) :
    ∀ db : DB, updateFirst p f (updateFirst p g db) =
      updateFirst p (fun u => f (g u)) db := by
  intro db
  induction db with
  | nil => rfl
  | cons u us ih =>
    by_cases h : p u
    · rw [updateFirst, if_pos h, updateFirst, updateFirst, if_pos h,
        if_pos (by simp [hpg u, h])]
    · rw [updateFirst, if_neg h, updateFirst, updateFirst, if_neg h, if_neg h, ih]

/-- Rewriting the first match with `g` and then with `f` is the identity when
`f` inverts `g` pointwise and `g` preserves matching. -/
theorem updateFirst_inverse (p : User → Bool) (f g : User → User)
    (hpg : ∀ u, p (g u) = p u) (hfg : ∀ u, f (g u) = u) :
    ∀ db : DB, updateFirst p f (updateFirst p g db) = db := by
  intro db
  induction db with
  | nil => rfl
  | cons u us ih =>
    by_cases h : p u
    · have h2 : p (g u) = true := by rw [hpg u]; exact h
      rw [updateFirst, if_pos h, updateFirst, if_pos h2, hfg]
    · rw [updateFirst, if_neg h, updateFirst, if_neg h, ih]

/-- Rewriting with a pointwise-identity function changes nothing. -/
theorem updateFirst_id (p : User → Bool) (f : User → User)
    (hf : ∀ u, f u = u) : ∀ db : DB, updateFirst p f db = db := by
  intro db
  induction db with
  | nil => rfl
  | cons u us ih =>
    by_cases h : p u
    · rw [updateFirst, if_pos h, hf]
    · rw [updateFirst, if_neg h, ih]

/-- Non-negativity of all balances is preserved by `upsertBy` when the update
keeps the matched row non-negative and the created row is non-negative. -/
theorem allNonneg_upsertBy (p : User → Bool) (upd : User → User) (c : User)
    (db : DB) (h : allNonneg db)
    (hupd : ∀ u, db.find? p = some u → 0 ≤ (upd u).coins)
    (hc : 0 ≤ c.coins) :
    allNonneg (upsertBy p upd c db).1 := by
  unfold upsertBy
  cases hfind : db.find? p with
  | none => exact allNonneg_append_singleton db c h hc
  | some u => exact allNonneg_updateFirst p upd db h hupd

/-!
## Claim theorems
-/

/-- C1 counterexample: a credit with a negative amount (which no endpoint
rejects) drives an existing non-negative balance below zero:
`sendCoinsByUserId` with `coins = -1` on a user holding 0 coins leaves that
user with `coins = -1`. -/
theorem sendCoinsByUserId_negative_amount_violates_nonneg :
    allNonneg exDb0 ∧ ¬ allNonneg (sendCoinsByUserId exAlice (-1) exDb0).1 := by
  decide

/-- C1 (amended): for every ledger operation invoked with a non-negative
amount (for `sendCoinsByGithubId`, a string parsing to a non-negative
integer), any starting state with all balances non-negative yields a state
with all balances non-negative. -/
theorem ledger_ops_preserve_nonneg_of_nonneg_amount (db : DB)
    (h : allNonneg db) :
    (∀ (iu : DiscordUserInput) (coins : Int), 0 ≤ coins →
      allNonneg (sendCoinsByUserId iu coins db).1) ∧
    (∀ (gu : GithubUserInput) (s : String) (n : Int),
      parseIntJS s = some n → 0 ≤ n →
      allNonneg (sendCoinsByGithubId gu s db).1) ∧
    (∀ (rcv snd : DiscordUserInput) (coins : Int), 0 ≤ coins →
      allNonneg (payCoinsByUserId rcv snd coins db).1) := by
  refine ⟨?_, ?_, ?_⟩
  · intro iu coins hc
    unfold sendCoinsByUserId
    exact allNonneg_upsertBy _ _ _ db h
      (fun u hu => add_nonneg (h u (List.mem_of_find?_eq_some hu)) hc) hc
  · intro gu s n hp hn
    unfold sendCoinsByGithubId
    rw [hp]
    exact allNonneg_upsertBy _ _ _ db h
      (fun u hu => add_nonneg (h u (List.mem_of_find?_eq_some hu)) hn) hn
  · intro rcv snd coins hc
    cases hfind : db.find? (fun u => u.discordId == some snd.id) with
    | none =>
      simp only [payCoinsByUserId, hfind]
      exact allNonneg_append_singleton db _ h (le_refl 0)
    | some s =>
      simp only [payCoinsByUserId, hfind]
      by_cases hcond : s.coins ≤ 0 ∨ s.coins < coins
      · rw [if_pos hcond]; exact h
      · rw [if_neg hcond]
        push_neg at hcond
        have h1 : allNonneg (decrementSender snd.id coins db) := by
          unfold decrementSender
          refine allNonneg_updateFirst _ _ db h (fun u hu => ?_)
          have hus : u = s := by rw [hfind] at hu; exact (Option.some.inj hu).symm
          subst hus
          exact sub_nonneg.mpr hcond.2
        exact allNonneg_upsertBy _ _ _ _ h1
          (fun u hu => add_nonneg (h1 u (List.mem_of_find?_eq_some hu)) hc) hc

/-- C1 witness: a concrete non-negative transfer preserving non-negativity. -/
theorem ledger_ops_preserve_nonneg_of_nonneg_amount_witness :
    allNonneg exDb100 ∧
    allNonneg (payCoinsByUserId exBob exAlice 30 exDb100).1 :=
  ⟨by decide,
    (ledger_ops_preserve_nonneg_of_nonneg_amount exDb100 (by decide)).2.2
      exBob exAlice 30 (by decide)⟩

/-- C2 (code bug, evaluated at the failing input): no endpoint validates the
amount, so `amount = 0` (and a negative amount) is accepted rather than
rejected with `InvalidAmount` before persistence: the credit performs the
upsert and returns a success envelope, and the transfer proceeds, creating the
receiver with a zero (resp. negative) initial balance. -/
theorem no_invalid_amount_validation :
    sendCoinsByUserId exAlice 0 [] =
      ([newDiscordRow exAlice 0], .success (newDiscordRow exAlice 0)) ∧
    (payCoinsByUserId exBob exAlice 0 exDb100).2 =
      .success (newDiscordRow exBob 0) ∧
    (payCoinsByUserId exBob exAlice (-5) exDb100).2 =
      .success (newDiscordRow exBob (-5)) := by
  decide

/-- C4 (code bug, evaluated at the failing input): the sender-decrement write
filters only on `discordId` and is not conditioned on `coins >= amount` at
write time: applied to a row holding 2 coins with amount 5 (as arises when a
concurrent transfer drains the balance between check and write), it decrements
the row to -3 instead of affecting zero rows and failing. -/
theorem decrementSender_unconditional :
    (newDiscordRow exAlice 2).coins < 5 ∧
    decrementSender exAlice.id 5 [newDiscordRow exAlice 2] =
      [{ newDiscordRow exAlice 2 with coins := -3 }] := by
  decide

/-- C7 (code bug, evaluated at the failing input): the shared catch block
classifies no branch for a known persistence error whose code is not the
unique-constraint code (for example `P2003`), nor for an unrecognized error,
so the mutation returns `undefined`: neither a success envelope nor a raised
error. -/
theorem catch_block_silent_path :
    classifyCaught (.prismaKnown "P2003") = none ∧
    runCatch User (.prismaKnown "P2003") = .silent ∧
    runCatch User .unknownError = .silent := by
  refine ⟨rfl, rfl, rfl⟩

/-- C5: when the sender exists with balance strictly below the amount,
`payCoinsByUserId` raises the insufficient-balance error and the state is
completely unchanged. -/
theorem payCoins_insufficient_balance (receiver sender : DiscordUserInput)
    (coins : Int) (db : DB) (s : User)
    (hs : db.find? (fun u => u.discordId == some sender.id) = some s)
    (hlt : s.coins < coins) :
    payCoinsByUserId receiver sender coins db =
      (db, .error insufficientBalanceError) := by
  simp only [payCoinsByUserId, hs]
  rw [if_pos (Or.inr hlt)]
  rfl

/-- C5 witness: transferring 300 from a sender holding 100 fails with the
insufficient-balance error and leaves the database unchanged. -/
theorem payCoins_insufficient_balance_witness :
    payCoinsByUserId exBob exAlice 300 exDb100 =
      (exDb100, .error insufficientBalanceError) :=
  payCoins_insufficient_balance exBob exAlice 300 exDb100
    (newDiscordRow exAlice 100) (by decide) (by decide)

/-- C6: when the sender identifier resolves to no user, `payCoinsByUserId`
creates the sender with `coins = 0` (a persisted side effect) and fails with
the insufficient-balance error; the resulting state is exactly the old state
plus the new sender row, so the receiver is never touched. -/
theorem payCoins_missing_sender_creates_and_fails
    (receiver sender : DiscordUserInput) (coins : Int) (db : DB)
    (hs : db.find? (fun u => u.discordId == some sender.id) = none) :
    payCoinsByUserId receiver sender coins db =
      (db ++ [newDiscordRow sender 0], .error insufficientBalanceError) ∧
    (newDiscordRow sender 0).coins = 0 := by
  constructor
  · simp only [payCoinsByUserId, hs]
    rfl
  · rfl

/-- C6 witness: a transfer from an unknown sender on the empty database
creates the sender with 0 coins and fails. -/
theorem payCoins_missing_sender_creates_and_fails_witness :
    payCoinsByUserId exBob exAlice 30 [] =
      ([newDiscordRow exAlice 0], .error insufficientBalanceError) ∧
    (newDiscordRow exAlice 0).coins = 0 :=
  payCoins_missing_sender_creates_and_fails exBob exAlice 30 [] rfl

/-- C8: for a numeric `coins` string and a `githubId` with no existing user,
`sendCoinsByGithubId` appends exactly one row whose `coins` is the parsed
number and whose `thumbnail` is the provided `avatarUrl` verbatim, and the
success envelope carries that row. -/
theorem sendCoinsByGithubId_creates_parsed_user (gu : GithubUserInput)
    (coinsStr : String) (n : Int) (db : DB)
    (hp : parseIntJS coinsStr = some n)
    (habs : db.find? (fun u => u.githubId == some gu.id) = none) :
    sendCoinsByGithubId gu coinsStr db =
      (db ++ [newGithubRow gu n], .success (newGithubRow gu n)) ∧
    (newGithubRow gu n).coins = n ∧
    (newGithubRow gu n).thumbnail = gu.avatarUrl := by
  refine ⟨?_, rfl, rfl⟩
  simp only [sendCoinsByGithubId, hp, upsertBy, habs]

/-- C8 witness: crediting `"15"` to an unknown GitHub identity on the empty
database creates a user with 15 coins and the avatar URL verbatim. -/
theorem sendCoinsByGithubId_creates_parsed_user_witness :
    parseIntJS "15" = some 15 ∧
    sendCoinsByGithubId exOcto "15" [] =
      ([newGithubRow exOcto 15], .success (newGithubRow exOcto 15)) ∧
    (newGithubRow exOcto 15).coins = 15 ∧
    (newGithubRow exOcto 15).thumbnail = exOcto.avatarUrl :=
  ⟨by decide,
    sendCoinsByGithubId_creates_parsed_user exOcto "15" 15 [] (by decide) rfl⟩

/-- C9: the thumbnail resolver is a total function of its inputs: with no
avatar hash and a discriminator parsing to `n`, it returns the default-avatar
URL with index `n` mod 5 (JavaScript truncating `%`); with an avatar hash it
returns the per-account URL whose extension is `gif` exactly when the hash
starts with `a_`, else `png`. -/
theorem thumbnail_resolver_correct (id d a : String) :
    (∀ n : Int, parseIntJS d = some n →
      profileImageUrl none id d =
        "https://cdn.discordapp.com/embed/avatars/" ++
          toString (n.tmod 5) ++ ".png") ∧
    profileImageUrl (some a) id d =
      "https://cdn.discordapp.com/avatars/" ++ id ++ "/" ++ a ++ "." ++
        (if strStartsWith a "a_" then "gif" else "png") := by
  constructor
  · intro n hn
    simp only [profileImageUrl, jsMod, hn]
    rfl
  · rfl

/-- C9 witness: discriminator `"7"` with no avatar hash yields default avatar
index `7 mod 5 = 2`; avatar hash `a_abc123` yields a `.gif` URL. -/
theorem thumbnail_resolver_correct_witness :
    parseIntJS "7" = some 7 ∧
    profileImageUrl none "42" "7" =
      "https://cdn.discordapp.com/embed/avatars/2.png" ∧
    profileImageUrl (some "a_abc123") "42" "7" =
      "https://cdn.discordapp.com/avatars/42/a_abc123.gif" := by
  refine ⟨by decide, ?_, ?_⟩
  · exact ((thumbnail_resolver_correct "42" "7" "a_abc123").1 7 (by decide)).trans rfl
  · exact ((thumbnail_resolver_correct "42" "7" "a_abc123").2).trans (by decide)

/-- C10: a self-transfer (receiver resolving to the same `discordId` as the
sender) with `0 < amount <= balance` succeeds and leaves the database
unchanged: the decrement and the increment hit the same record. -/
theorem payCoins_self_transfer_noop (receiver sender : DiscordUserInput)
    (coins : Int) (db : DB) (u : User)
    (hid : receiver.id = sender.id)
    (hs : db.find? (fun v => v.discordId == some sender.id) = some u)
    (h0 : 0 < coins) (hbal : coins ≤ u.coins) :
    payCoinsByUserId receiver sender coins db = (db, .success u) := by
  have hcond : ¬ (u.coins ≤ 0 ∨ u.coins < coins) := by
    push_neg
    exact ⟨lt_of_lt_of_le h0 hbal, hbal⟩
  have hpt : ∀ x : User,
      ({ x with coins := x.coins - coins + coins } : User) = x := by
    intro x
    cases x
    simp [Int.sub_add_cancel]
  have hdb1 : (decrementSender sender.id coins db).find?
      (fun v => v.discordId == some sender.id) =
      some { u with coins := u.coins - coins } := by
    unfold decrementSender
    rw [find?_updateFirst_self (fun v => v.discordId == some sender.id)
      (fun v => { v with coins := v.coins - coins }) (fun v => rfl) db, hs]
    rfl
  simp only [payCoinsByUserId, hs, hid]
  rw [if_neg hcond]
  simp only [upsertBy, hdb1]
  refine Prod.ext ?_ ?_
  · show updateFirst (fun v => v.discordId == some sender.id)
        (fun v => { v with coins := v.coins + coins })
        (updateFirst (fun v => v.discordId == some sender.id)
          (fun v => { v with coins := v.coins - coins }) db) = db
    exact updateFirst_inverse (fun v => v.discordId == some sender.id)
      (fun v => { v with coins := v.coins + coins })
      (fun v => { v with coins := v.coins - coins })
      (fun v => rfl) (fun v => hpt v) db
  · exact congrArg Outcome.success (hpt u)

/-- C10 witness: a concrete self-transfer of 30 from a balance of 100
succeeds and changes nothing. -/
theorem payCoins_self_transfer_noop_witness :
    payCoinsByUserId exAlice exAlice 30 exDb100 =
      (exDb100, .success (newDiscordRow exAlice 100)) :=
  payCoins_self_transfer_noop exAlice exAlice 30 exDb100
    (newDiscordRow exAlice 100) rfl (by decide) (by decide) (by decide)

/-- C3 counterexample: a transfer in which both parties exist and
`balance >= amount >= 1` holds, but sender and receiver resolve to the same
user: the operation succeeds, yet the sender balance does not decrease by the
amount (100 stays 100, not 70), contradicting the claim as stated. -/
theorem payCoins_transfer_claim_fails_on_self_transfer :
    exDb100.find? (fun u => u.discordId == some exAlice.id) =
      some (newDiscordRow exAlice 100) ∧
    (1 : Int) ≤ 30 ∧ (30 : Int) ≤ (newDiscordRow exAlice 100).coins ∧
    (payCoinsByUserId exAlice exAlice 30 exDb100).2 =
      .success (newDiscordRow exAlice 100) ∧
    (payCoinsByUserId exAlice exAlice 30 exDb100).1.find?
        (fun u => u.discordId == some exAlice.id) =
      some (newDiscordRow exAlice 100) ∧
    ¬ (payCoinsByUserId exAlice exAlice 30 exDb100).1.find?
        (fun u => u.discordId == some exAlice.id) =
      some { newDiscordRow exAlice 100 with coins := 70 } := by
  decide

/-- C3 (amended): for every transfer between distinct identifiers where the
sender exists with balance >= amount >= 1: if the receiver exists, the sender
balance decreases by exactly the amount, the receiver balance increases by
exactly the amount, the sum of the two balances is unchanged, and the response
echoes the updated receiver; if the receiver does not exist, the receiver is
created with balance equal to the amount and the response echoes the created
receiver record (the sender still being debited by the amount). -/
theorem payCoins_transfer_correct (receiver sender : DiscordUserInput)
    (coins : Int) (db : DB) (s : User)
    (hs : db.find? (fun u => u.discordId == some sender.id) = some s)
    (h1 : 1 ≤ coins) (hbal : coins ≤ s.coins)
    (hne : sender.id ≠ receiver.id) :
    (∀ r, db.find? (fun u => u.discordId == some receiver.id) = some r →
      (payCoinsByUserId receiver sender coins db).1.find?
          (fun u => u.discordId == some sender.id) =
        some { s with coins := s.coins - coins } ∧
      (payCoinsByUserId receiver sender coins db).1.find?
          (fun u => u.discordId == some receiver.id) =
        some { r with coins := r.coins + coins } ∧
      s.coins - coins + (r.coins + coins) = s.coins + r.coins ∧
      (payCoinsByUserId receiver sender coins db).2 =
        .success { r with coins := r.coins + coins }) ∧
    (db.find? (fun u => u.discordId == some receiver.id) = none →
      (payCoinsByUserId receiver sender coins db).1.find?
          (fun u => u.discordId == some receiver.id) =
        some (newDiscordRow receiver coins) ∧
      (newDiscordRow receiver coins).coins = coins ∧
      (payCoinsByUserId receiver sender coins db).2 =
        .success (newDiscordRow receiver coins) ∧
      (payCoinsByUserId receiver sender coins db).1.find?
          (fun u => u.discordId == some sender.id) =
        some { s with coins := s.coins - coins }) := by
  have hc0 : (0 : Int) < coins := lt_of_lt_of_le zero_lt_one h1
  have hcond : ¬ (s.coins ≤ 0 ∨ s.coins < coins) := by
    push_neg
    exact ⟨lt_of_lt_of_le hc0 hbal, hbal⟩
  have hdisj1 : ∀ v : User, (v.discordId == some sender.id) = true →
      (v.discordId == some receiver.id) = false := by
    intro v hv
    have h2 : v.discordId = some sender.id := by simpa using hv
    rw [h2]
    simp only [beq_eq_false_iff_ne, ne_eq, Option.some.injEq]
    exact hne
  have hdisj2 : ∀ v : User, (v.discordId == some receiver.id) = true →
      (v.discordId == some sender.id) = false := by
    intro v hv
    have h2 : v.discordId = some receiver.id := by simpa using hv
    rw [h2]
    simp only [beq_eq_false_iff_ne, ne_eq, Option.some.injEq]
    exact fun hh => hne hh.symm
  have hdb1s : (decrementSender sender.id coins db).find?
      (fun v => v.discordId == some sender.id) =
      some { s with coins := s.coins - coins } := by
    unfold decrementSender
    rw [find?_updateFirst_self (fun v => v.discordId == some sender.id)
      (fun v => { v with coins := v.coins - coins }) (fun v => rfl) db, hs]
    rfl
  have hdb1r : (decrementSender sender.id coins db).find?
      (fun v => v.discordId == some receiver.id) =
      db.find? (fun v => v.discordId == some receiver.id) := by
    unfold decrementSender
    exact find?_updateFirst_of_disjoint
      (fun v => v.discordId == some receiver.id)
      (fun v => v.discordId == some sender.id)
      (fun v => { v with coins := v.coins - coins }) (fun v => rfl) hdisj1 db
  constructor
  · intro r hr
    have hup : upsertBy (fun v => v.discordId == some receiver.id)
        (fun v => { v with coins := v.coins + coins })
        (newDiscordRow receiver coins) (decrementSender sender.id coins db) =
        (updateFirst (fun v => v.discordId == some receiver.id)
          (fun v => { v with coins := v.coins + coins })
          (decrementSender sender.id coins db),
         { r with coins := r.coins + coins }) := by
      unfold upsertBy
      rw [hdb1r, hr]
    simp only [payCoinsByUserId, hs]
    rw [if_neg hcond]
    simp only [hup]
    refine ⟨?_, ?_, by omega, by trivial⟩
    · rw [find?_updateFirst_of_disjoint
        (fun v => v.discordId == some sender.id)
        (fun v => v.discordId == some receiver.id)
        (fun v => { v with coins := v.coins + coins }) (fun v => rfl) hdisj2]
      exact hdb1s
    · rw [find?_updateFirst_self (fun v => v.discordId == some receiver.id)
        (fun v => { v with coins := v.coins + coins }) (fun v => rfl), hdb1r, hr]
      rfl
  · intro hnone
    have hup : upsertBy (fun v => v.discordId == some receiver.id)
        (fun v => { v with coins := v.coins + coins })
        (newDiscordRow receiver coins) (decrementSender sender.id coins db) =
        (decrementSender sender.id coins db ++ [newDiscordRow receiver coins],
         newDiscordRow receiver coins) := by
      unfold upsertBy
      rw [hdb1r, hnone]
    simp only [payCoinsByUserId, hs]
    rw [if_neg hcond]
    simp only [hup]
    refine ⟨?_, by trivial, by trivial, ?_⟩
    · rw [List.find?_append, hdb1r, hnone]
      show ([newDiscordRow receiver coins].find?
        (fun v => v.discordId == some receiver.id)) =
        some (newDiscordRow receiver coins)
      exact List.find?_cons_of_pos _ (by simp [newDiscordRow])
    · rw [List.find?_append, hdb1s]
      rfl

/-- C3 witness: a sender with 100 coins transfers 30 to a fresh receiver
identifier: the sender ends at 70, the receiver is created with 30, and the
response echoes the created receiver record. -/
theorem payCoins_transfer_correct_witness :
    (payCoinsByUserId exBob exAlice 30 exDb100).1.find?
        (fun u => u.discordId == some exBob.id) =
      some (newDiscordRow exBob 30) ∧
    (payCoinsByUserId exBob exAlice 30 exDb100).2 =
      .success (newDiscordRow exBob 30) ∧
    (payCoinsByUserId exBob exAlice 30 exDb100).1.find?
        (fun u => u.discordId == some exAlice.id) =
      some { newDiscordRow exAlice 100 with coins := 70 } := by
  have h := (payCoins_transfer_correct exBob exAlice 30 exDb100
    (newDiscordRow exAlice 100) (by decide) (by decide) (by decide)
    (by decide)).2 (by decide)
  exact ⟨h.1, h.2.2.1, h.2.2.2⟩
